import Mathlib

/-!
Verification of the image-prompt-extractor service (`server.js`).

Strings are embedded as `List Char` (JS strings are sequences of code
units; every literal relevant here is in the Basic Latin range, where the
two notions coincide).  The text-cleanup pass of `generatePrompt`
(server.js lines 139-172), the fixed-window rate limiter (lines 47-64),
the multer upload gate (lines 24-37), the download helper (lines 85-101),
the two analyze route handlers (lines 185-281) and the error-handling
middleware (lines 292-307) are translated below.
-/

/-- Whitespace class of JavaScript (`String.prototype.trim` and the regex
class used in `replace(/\s+/g, ' ')` share this set). -/
def isJsWs (c : Char) : Bool :=
  c = ' ' || c = '\t' || c = '\n' || c = '\r' || c = '\x0b' || c = '\x0c' ||
  c = '\u00a0' || c = '\u1680' || ('\u2000' ≤ c && c ≤ '\u200a') ||
  c = '\u2028' || c = '\u2029' || c = '\u202f' || c = '\u205f' ||
  c = '\u3000' || c = '\ufeff'

/-- Model of `s.trim()`: drop whitespace from both ends. -/
def trimList (s : List Char) : List Char :=
  ((s.dropWhile isJsWs).reverse.dropWhile isJsWs).reverse

/-- Model of `s.toLowerCase()` applied character-wise.  Every string this
program lowercases (the boilerplate literals and their candidate matches)
is compared only on its ASCII letters, where JavaScript lowercasing is the
ASCII case map. -/
def jsLower (s : List Char) : List Char :=
  s.map Char.toLower

/-- Lines 142-144: `if (prompt.startsWith('"') && prompt.endsWith('"'))
prompt = prompt.slice(1, -1)`.  For a string of length `n ≥ 1`,
`slice(1, -1)` keeps characters `1 .. n-2`, which is `drop 1` followed by
`dropLast` (for `n = 1` both give the empty string, exactly as
`slice(1, 0)` does). -/
def stripQuotes (s : List Char) : List Char :=
  if s.head? = some '"' && s.getLast? = some '"' then (s.drop 1).dropLast
  else s

/-- Lines 147-157: the ordered list of boilerplate lead-ins, in source
order (a priority order). -/
def boilerList : List (List Char) :=
  [("Here's a detailed description of the image:").data,
   ("Here's a detailed description:").data,
   ("This image shows:").data,
   ("This image depicts:").data,
   ("The image shows:").data,
   ("The image depicts:").data,
   ("I can see:").data,
   ("Looking at this image:").data,
   ("In this image:").data]

/-- Line 160: `prompt.toLowerCase().startsWith(prefix.toLowerCase())`. -/
def boilerMatch (s p : List Char) : Bool :=
  (jsLower p).isPrefixOf (jsLower s)

/-- Lines 159-164: the `for`/`break` loop removes the first matching
boilerplate lead-in (`prompt.slice(prefix.length).trim()`) and stops. -/
def stripBoilerplate (s : List Char) : List Char :=
  match boilerList.find? (boilerMatch s) with
  | some p => trimList (s.drop p.length)
  | none => s

/-- Line 167, first half: `replace(/\*\*/g, '')` — delete each
non-overlapping left-to-right occurrence of two consecutive asterisks. -/
def removePairs : List Char → List Char
  | [] => []
  | [c] => [c]
  | c1 :: c2 :: rest =>
    if c1 = '*' && c2 = '*' then removePairs rest
    else c1 :: removePairs (c2 :: rest)

/-- Line 167: `replace(/\*\*/g, '').replace(/\*/g, '')` — after the pair
removal, every remaining asterisk is deleted. -/
def stripEmphasis (s : List Char) : List Char :=
  (removePairs s).filter (fun c => !(c = '*'))

/-- Line 168, regex `replace(/\s+/g, ' ')`: each maximal run of
whitespace becomes one space.  The flag records whether the previous
character belonged to a whitespace run already rewritten. -/
def collapseWsAux : Bool → List Char → List Char
  | _, [] => []
  | prevWs, c :: rest =>
    if isJsWs c then
      if prevWs then collapseWsAux true rest
      else ' ' :: collapseWsAux true rest
    else c :: collapseWsAux false rest

/-- Model of `replace(/\s+/g, ' ')`. -/
def collapseWs (s : List Char) : List Char :=
  collapseWsAux false s

/-- Lines 170-172: `if (prompt.endsWith('.')) prompt = prompt.slice(0, -1)`. -/
def dropTrailingPeriod (s : List Char) : List Char :=
  if s.getLast? = some '.' then s.dropLast else s

/-- The whole cleanup pass of `generatePrompt` (lines 139-172): trim the
raw model text, strip one surrounding quote layer, strip the first
matching boilerplate lead-in, delete emphasis markers, collapse
whitespace and trim, and drop one trailing period. -/
def clean (s : List Char) : List Char :=
  dropTrailingPeriod
    (trimList (collapseWs (stripEmphasis (stripBoilerplate (stripQuotes (trimList s))))))

/-- RateWindow state (server.js lines 44-45): the module-level variables
`requestCount` and `lastResetTime`.  Timestamps and the counter are
JavaScript integers, modelled as `Int`. -/
structure RLState where
  requestCount : Int
  lastResetTime : Int
deriving DecidableEq

/-- Observable outcome of one `rateLimit()` call: either the function
falls through to `requestCount++; return Promise.resolve()`, or it
returns `new Promise(resolve => setTimeout(resolve, ms))` — suspending
the caller for `ms` milliseconds and, crucially, skipping the increment
(the early `return` on line 58 leaves the counter untouched). -/
inductive RLOutcome where
  | proceed
  | waitFor (ms : Int)
deriving DecidableEq

/-- Model of `rateLimit()` (server.js lines 47-64) as a pure transition
on the RateWindow state, parameterized by `now = Date.now()`. -/
def rateLimit (st : RLState) (now : Int) : RLState × RLOutcome :=
  let st1 := if now - st.lastResetTime > 60000 then RLState.mk 0 now else st
  if st1.requestCount ≥ 15 then
    let waitTime := 60000 - (now - st1.lastResetTime)
    if waitTime > 0 then (st1, RLOutcome.waitFor waitTime)
    else (RLState.mk (st1.requestCount + 1) st1.lastResetTime, RLOutcome.proceed)
  else (RLState.mk (st1.requestCount + 1) st1.lastResetTime, RLOutcome.proceed)

/-- Sequential composition of `rateLimit` calls at the given timestamps
(the single-threaded event loop serializes the state updates; a waiting
call contributes no state change, exactly as the early return does). -/
def runCalls (st : RLState) (times : List Int) : RLState :=
  times.foldl (fun s t => (rateLimit s t).1) st

/-- An uploaded file as multer presents it (`req.file`): the declared
MIME type and the in-memory buffer (memory storage, lines 23-25). -/
structure JsFile where
  mimetype : String
  buffer : List Nat
deriving DecidableEq

/-- Response body of the JSON envelope: `{ success: true, prompt }` or
`{ success: false, error }`. -/
inductive RespBody where
  | success (prompt : String)
  | failure (error : String)
deriving DecidableEq

/-- An HTTP response: status code plus JSON body. -/
structure Response where
  status : Nat
  body : RespBody
deriving DecidableEq

/-- Responses of the `/analyze` route, which answers non-JSON clients
with redirects (`/?success=...` or `/?error=...`); the query-string
encoding is kept abstract, only the carried value matters here. -/
inductive WebResponse where
  | jsonResp (r : Response)
  | redirectSuccess (prompt : String)
  | redirectError (msg : String)
deriving DecidableEq

/-- Size ceiling shared by the multer limit and the axios
`maxContentLength` (lines 27 and 90): 32 MiB. -/
def maxBytes : Nat := 32 * 1024 * 1024

/-- The fixed MIME allow-list of `upload.fileFilter` (line 30). -/
def allowedTypes : List String :=
  [("image/png"), ("image/jpg"), ("image/jpeg"), ("image/gif"),
   ("image/webp"), ("image/bmp"), ("image/tiff"), ("image/svg+xml"),
   ("image/x-icon"), ("image/heic"), ("image/heif"), ("image/avif")]

/-- Lines 29-36: `fileFilter` accepts an allow-listed MIME type and
otherwise calls back with a plain `Error` (not a `MulterError`). -/
def fileFilter (mimetype : String) : Except String Unit :=
  if mimetype ∈ allowedTypes then Except.ok ()
  else Except.error ("Invalid file type. Only image files are allowed.")

/-- The two kinds of error the upload middleware can hand to the error
middleware: a `MulterError` with code `LIMIT_FILE_SIZE` (file above the
size limit), or the plain `Error` produced by `fileFilter`. -/
inductive UploadError where
  | multerLimitFileSize
  | fileFilterError (msg : String)
deriving DecidableEq

/-- Error-handling middleware (lines 292-307): only a `MulterError` with
code `LIMIT_FILE_SIZE` is mapped to 413; every other error — including
the plain `Error` from `fileFilter` — falls through to the generic
500 `Internal server error` response. -/
def errorMiddleware : UploadError → Response
  | UploadError.multerLimitFileSize =>
    Response.mk 413 (RespBody.failure ("File too large. Maximum size is 32MB."))
  | UploadError.fileFilterError _ =>
    Response.mk 500 (RespBody.failure ("Internal server error"))

/-- The multer middleware `upload.single('image_file')` run before each
handler: no file passes through, a file is first subjected to
`fileFilter` and then to the 32 MiB `fileSize` limit; an error skips the
handler and goes to the error middleware. -/
def multerGate (file : Option JsFile) : Except UploadError (Option JsFile) :=
  match file with
  | none => Except.ok none
  | some f =>
    match fileFilter f.mimetype with
    | Except.error m => Except.error (UploadError.fileFilterError m)
    | Except.ok _ =>
      if f.buffer.length > maxBytes then Except.error UploadError.multerLimitFileSize
      else Except.ok (some f)

/-- The external collaborators of the pipeline: the network as axios
sees it, the sharp re-encoder, and the Gemini model.  Each is an
arbitrary function so that theorems quantifying over `Env` express that
a response was produced without consulting the corresponding service. -/
structure Env where
  fetch : String → Except String (List Nat)
  sharp : List Nat → Except String (List Nat)
  gemini : List Nat → Except String String

/-- Lines 87-95: `axios.get` with `maxContentLength: 32 * 1024 * 1024`
rejects a body above the ceiling with its size-exceeded error. -/
def axiosGet (env : Env) (url : String) : Except String (List Nat) :=
  match env.fetch url with
  | Except.ok data =>
    if data.length > maxBytes then
      Except.error ("maxContentLength size of 33554432 exceeded")
    else Except.ok data
  | Except.error m => Except.error m

/-- Lines 85-101: `downloadImage` forwards the axios result and wraps
any failure in `Failed to download image: ...`. -/
def downloadImage (env : Env) (url : String) : Except String (List Nat) :=
  match axiosGet env url with
  | Except.ok data => Except.ok data
  | Except.error m => Except.error (("Failed to download image: ") ++ m)

/-- Lines 67-82: `processImage` delegates to sharp and wraps any failure
in `Image processing failed: ...`. -/
def processImage (env : Env) (buf : List Nat) : Except String (List Nat) :=
  match env.sharp buf with
  | Except.ok out => Except.ok out
  | Except.error m => Except.error (("Image processing failed: ") ++ m)

/-- Lines 104-178: `generatePrompt` sends the image to the model (after
an awaited `rateLimit()`, which only delays and never alters the value),
applies the cleanup pass to the returned text, and wraps any provider
failure in `Failed to generate prompt: ...`. -/
def generatePromptOf (env : Env) (buf : List Nat) : Except String String :=
  match env.gemini buf with
  | Except.ok text => Except.ok (String.mk (clean text.data))
  | Except.error m => Except.error (("Failed to generate prompt: ") ++ m)

/-- JavaScript truthiness of the destructured `image_url` field: absent
or the empty string is falsy. -/
def truthy : Option String → Bool
  | none => false
  | some s => !(s = "")

/-- Model of `String.prototype.includes`: the pattern occurs as a
contiguous substring. -/
def hasSubstr (pat : List Char) : List Char → Bool
  | [] => pat.isEmpty
  | c :: rest => pat.isPrefixOf (c :: rest) || hasSubstr pat rest

/-- Line 215 / 228: `req.headers.accept &&
req.headers.accept.includes('application/json')`. -/
def acceptsJson : Option String → Bool
  | none => false
  | some a => hasSubstr (("application/json").data) a.data

/-- The `POST /api/analyze` handler body (lines 239-281), after multer
has run: the two mutual-exclusivity guards return 400 immediately; then
the buffer is acquired (URL download when `image_url` is truthy,
otherwise the uploaded buffer — one of the two exists past the guards,
so the `getD` defaults are never reached); any thrown error is caught
and answered with 500; success is answered with 200. -/
def apiAnalyzeCore (env : Env) (imageUrl : Option String)
    (file : Option JsFile) : Response :=
  if truthy imageUrl && file.isSome then
    Response.mk 400
      (RespBody.failure ("Please provide either an image URL or upload a file, not both."))
  else if !(truthy imageUrl) && file.isNone then
    Response.mk 400
      (RespBody.failure ("Please provide either an image URL or upload a file."))
  else
    match
      (if truthy imageUrl then downloadImage env (imageUrl.getD (""))
       else Except.ok ((file.map JsFile.buffer).getD [])) with
    | Except.error m => Response.mk 500 (RespBody.failure m)
    | Except.ok buf =>
      match processImage env buf with
      | Except.error m => Response.mk 500 (RespBody.failure m)
      | Except.ok processed =>
        match generatePromptOf env processed with
        | Except.error m => Response.mk 500 (RespBody.failure m)
        | Except.ok prompt => Response.mk 200 (RespBody.success prompt)

/-- The `POST /analyze` handler body (lines 185-237), after multer has
run.  Same guards (their 400 answers are JSON regardless of the Accept
header, as in the source), same acquisition, processing and prompt
generation; only the final success and catch answers consult the Accept
header, redirecting non-JSON clients. -/
def analyzeWebCore (env : Env) (accept : Option String)
    (imageUrl : Option String) (file : Option JsFile) : WebResponse :=
  if truthy imageUrl && file.isSome then
    WebResponse.jsonResp (Response.mk 400
      (RespBody.failure ("Please provide either an image URL or upload a file, not both.")))
  else if !(truthy imageUrl) && file.isNone then
    WebResponse.jsonResp (Response.mk 400
      (RespBody.failure ("Please provide either an image URL or upload a file.")))
  else
    match
      (if truthy imageUrl then downloadImage env (imageUrl.getD (""))
       else Except.ok ((file.map JsFile.buffer).getD [])) with
    | Except.error m =>
      if acceptsJson accept then
        WebResponse.jsonResp (Response.mk 500 (RespBody.failure m))
      else WebResponse.redirectError m
    | Except.ok buf =>
      match processImage env buf with
      | Except.error m =>
        if acceptsJson accept then
          WebResponse.jsonResp (Response.mk 500 (RespBody.failure m))
        else WebResponse.redirectError m
      | Except.ok processed =>
        match generatePromptOf env processed with
        | Except.error m =>
          if acceptsJson accept then
            WebResponse.jsonResp (Response.mk 500 (RespBody.failure m))
          else WebResponse.redirectError m
        | Except.ok prompt =>
          if acceptsJson accept then
            WebResponse.jsonResp (Response.mk 200 (RespBody.success prompt))
          else WebResponse.redirectSuccess prompt

/-- Full `POST /api/analyze` route: multer first (an upload error goes
straight to the error middleware, always as JSON), then the handler. -/
def apiAnalyzeRoute (env : Env) (imageUrl : Option String)
    (file : Option JsFile) : Response :=
  match multerGate file with
  | Except.error e => errorMiddleware e
  | Except.ok f => apiAnalyzeCore env imageUrl f

/-- Full `POST /analyze` route: multer first (an upload error goes to
the error middleware, which answers JSON regardless of the Accept
header), then the handler. -/
def analyzeRoute (env : Env) (accept : Option String)
    (imageUrl : Option String) (file : Option JsFile) : WebResponse :=
  match multerGate file with
  | Except.error e => WebResponse.jsonResp (errorMiddleware e)
  | Except.ok f => analyzeWebCore env accept imageUrl f

/-- Concrete environment for witnesses: no network, identity sharp,
constant model text. -/
def envW : Env :=
  Env.mk (fun _ => Except.error ("network disabled"))
    (fun b => Except.ok b) (fun _ => Except.ok ("a cat"))

/-- Concrete allow-listed small upload for witnesses. -/
def fileW : JsFile := JsFile.mk ("image/png") [1, 2, 3]

/-- A payload one byte above the 32 MiB ceiling. -/
def bigData : List Nat := List.replicate (maxBytes + 1) 0

/-- An allow-listed upload whose buffer is one byte above the ceiling. -/
def fileBig : JsFile := JsFile.mk ("image/png") bigData

/-- Environment whose network returns the oversize payload for every
URL. -/
def envBig : Env :=
  Env.mk (fun _ => Except.ok bigData)
    (fun b => Except.ok b) (fun _ => Except.ok (""))

/-- Absence of two adjacent whitespace characters. -/
def NoWsPair (a b : Char) : Prop := isJsWs a = false ∨ isJsWs b = false

/-- C8: quote stripping removes exactly one surrounding layer: one pair of
double quotes around `a cat` disappears, and of two nested pairs only the
outer one is removed. -/
theorem c8_quote_single_layer :
    clean (("\"a cat\"").data) = ("a cat").data ∧
    clean (("\"\"a cat\"\"").data) = ("\"a cat\"").data := by
  constructor <;> decide

/-- C9: on the one-character input consisting of a single double quote,
the length-1 string satisfies both the starts-with and ends-with tests,
`slice(1, -1)` yields the empty string, and the remaining steps keep it,
so the cleanup returns the empty string. -/
theorem c9_lone_quote_empty :
    stripQuotes (("\"").data) = [] ∧ clean (("\"").data) = [] := by
  constructor <;> decide

/-- C7: boilerplate stripping is prioritized and not cumulative.  The
spec's example evaluates as stated; on an input whose remainder after the
first strip itself begins with a later boilerplate lead-in, that later
lead-in survives (the loop `break`s after the first match); and in
general the pass removes exactly the lead-in found first in list order,
or nothing when none matches. -/
theorem c7_first_match_only :
    clean (("This image shows: a red ball.").data) = ("a red ball").data ∧
    clean (("This image shows: The image depicts: a red ball.").data) =
      ("The image depicts: a red ball").data ∧
    (∀ s p, boilerList.find? (boilerMatch s) = some p →
      stripBoilerplate s = trimList (s.drop p.length)) ∧
    (∀ s, boilerList.find? (boilerMatch s) = none → stripBoilerplate s = s) := by
  refine ⟨by decide, by decide, ?_, ?_⟩
  · intro s p h
    simp [stripBoilerplate, h]
  · intro s h
    simp [stripBoilerplate, h]

/-- Witness for `c7_first_match_only`: concrete inputs discharging the
two hypothetical conjuncts. -/
theorem c7_first_match_only_w :
    stripBoilerplate (("This image shows: a dog").data) =
      trimList ((("This image shows: a dog").data).drop
        ((("This image shows:").data).length)) ∧
    stripBoilerplate (("a dog").data) = ("a dog").data :=
  ⟨c7_first_match_only.2.2.1 (("This image shows: a dog").data)
      (("This image shows:").data) (by decide),
   c7_first_match_only.2.2.2 (("a dog").data) (by decide)⟩

/-- C1 fails on the code: one application of the cleanup strips only one
quote layer, only one boilerplate lead-in, and only one trailing period,
and removing a trailing period can expose a trailing space, so a second
application can still change the string.  Four concrete inputs exhibit
the four ways. -/
theorem c1_counterexample :
    clean (clean (("\"\"a cat\"\"").data)) ≠ clean (("\"\"a cat\"\"").data) ∧
    clean (clean (("a cat..").data)) ≠ clean (("a cat..").data) ∧
    clean (clean (("This image shows: This image shows: a cat").data)) ≠
      clean (("This image shows: This image shows: a cat").data) ∧
    clean (clean (("a .").data)) ≠ clean (("a .").data) := by
  refine ⟨by decide, by decide, by decide, by decide⟩

set_option maxRecDepth 10000 in
/-- C2 fails on the code at the window boundary: starting from a fresh
window at time 0, fifteen calls at time 0 fill the counter, and a call
arriving exactly 60000 ms after `lastResetTime` is neither reset
(the reset test is `elapsed > 60000`) nor made to wait (the wait test is
`waitTime > 0` with `waitTime = 0`), so it pushes the counter to 16
without suspending. -/
theorem c2_counterexample :
    runCalls (RLState.mk 0 0) (List.replicate 15 0) = RLState.mk 15 0 ∧
    rateLimit (RLState.mk 15 0) 60000 = (RLState.mk 16 0, RLOutcome.proceed) := by
  constructor <;> decide

/-- C2 amended: for any single call that does not arrive exactly
60000 ms after `lastResetTime`, a counter at or below the ceiling stays
at or below the ceiling; and a call finding the counter at the ceiling
strictly inside the window is suspended for the remaining
`60000 - elapsed` ms (until the window rolls over) and leaves the state
— in particular the counter — unchanged. -/
theorem c2_ceiling_invariant (st : RLState) (now : Int)
    (hle : st.requestCount ≤ 15) (hne : now - st.lastResetTime ≠ 60000) :
    (rateLimit st now).1.requestCount ≤ 15 ∧
    (st.requestCount = 15 → 0 ≤ now - st.lastResetTime →
      now - st.lastResetTime < 60000 →
      rateLimit st now = (st, RLOutcome.waitFor (60000 - (now - st.lastResetTime))) ∧
      now + (60000 - (now - st.lastResetTime)) = st.lastResetTime + 60000) := by
  constructor
  · simp only [rateLimit]
    split_ifs <;> simp_all <;> omega
  · intro hc hge hlt
    have h1 : ¬(now - st.lastResetTime > 60000) := by omega
    have h3 : 60000 - (now - st.lastResetTime) > 0 := by omega
    refine ⟨?_, by omega⟩
    simp only [rateLimit]
    rw [if_neg h1, if_pos (show st.requestCount ≥ 15 by omega), if_pos h3]

/-- Witness for `c2_ceiling_invariant`: the sixteenth call of a window
that began at time 0, arriving at 1000 ms with the counter at 15. -/
theorem c2_ceiling_invariant_w :
    (rateLimit (RLState.mk 15 0) 1000).1.requestCount ≤ 15 ∧
    rateLimit (RLState.mk 15 0) 1000 =
      (RLState.mk 15 0, RLOutcome.waitFor 59000) :=
  have h := c2_ceiling_invariant (RLState.mk 15 0) 1000 (by decide) (by decide)
  ⟨h.1, by
    have h2 := (h.2 rfl (by decide) (by decide)).1
    simpa using h2⟩

/-- C3 fails on the code: the sixteenth call of a window (counter 15,
1000 ms elapsed) does return a 59000 ms timer and proceeds once it
fires, but the early `return` on line 58 skips `requestCount++`, so the
counter stays at 15 — it is never incremented to 16 by that call, and
the waiting branch performs no further state change when it resumes. -/
theorem c3_counterexample :
    rateLimit (RLState.mk 15 0) 1000 =
      (RLState.mk 15 0, RLOutcome.waitFor 59000) ∧
    (rateLimit (RLState.mk 15 0) 1000).1.requestCount = 15 := by
  constructor <;> decide

/-- C3 amended: the sixteenth call within the window (counter at 15,
`0 ≤ elapsed < 60000`) suspends for `60000 - elapsed` ms and then
proceeds without touching the state — in particular without
incrementing `requestCount`; and a call issued 61000 ms after
`lastResetTime` proceeds immediately with the window reset and the
counter set to 1. -/
theorem c3_sixteenth_and_rollover :
    (∀ st now, st.requestCount = 15 → 0 ≤ now - st.lastResetTime →
      now - st.lastResetTime < 60000 →
      rateLimit st now = (st, RLOutcome.waitFor (60000 - (now - st.lastResetTime)))) ∧
    (∀ st now, now - st.lastResetTime = 61000 →
      rateLimit st now = (RLState.mk 1 now, RLOutcome.proceed)) := by
  constructor
  · intro st now hc hge hlt
    have h1 : ¬(now - st.lastResetTime > 60000) := by omega
    have h3 : 60000 - (now - st.lastResetTime) > 0 := by omega
    simp only [rateLimit]
    rw [if_neg h1, if_pos (show st.requestCount ≥ 15 by omega), if_pos h3]
  · intro st now he
    have h1 : now - st.lastResetTime > 60000 := by omega
    simp only [rateLimit]
    rw [if_pos h1]
    norm_num

/-- Witness for `c3_sixteenth_and_rollover`: the sixteenth call at
1000 ms of a window begun at 0, and a call at 61000 ms. -/
theorem c3_sixteenth_and_rollover_w :
    rateLimit (RLState.mk 15 0) 1000 =
      (RLState.mk 15 0, RLOutcome.waitFor (60000 - (1000 - 0))) ∧
    rateLimit (RLState.mk 7 0) 61000 = (RLState.mk 1 61000, RLOutcome.proceed) :=
  ⟨c3_sixteenth_and_rollover.1 (RLState.mk 15 0) 1000 rfl (by decide) (by decide),
   c3_sixteenth_and_rollover.2 (RLState.mk 7 0) 61000 (by decide)⟩

/-- C4 describes the documented intent, but the code loses the 400: the
`fileFilter` rejection of a non-allow-listed MIME type is a plain
`Error`, not a `MulterError`, so the error-handling middleware's only
special case (`LIMIT_FILE_SIZE` to 413) does not apply and the request
is answered with the generic 500 `Internal server error` — not with a
400 carrying the filter's message. -/
theorem c4_unsupported_type_gets_500 (env : Env) (imageUrl : Option String) :
    fileFilter ("text/plain") =
      Except.error ("Invalid file type. Only image files are allowed.") ∧
    apiAnalyzeRoute env imageUrl (some (JsFile.mk ("text/plain") [0])) =
      Response.mk 500 (RespBody.failure ("Internal server error")) ∧
    (apiAnalyzeRoute env imageUrl (some (JsFile.mk ("text/plain") [0]))).status ≠ 400 := by
  have hg : multerGate (some (JsFile.mk ("text/plain") [0])) =
      Except.error (UploadError.fileFilterError
        ("Invalid file type. Only image files are allowed.")) := rfl
  refine ⟨rfl, ?_, ?_⟩ <;>
    simp [apiAnalyzeRoute, hg, errorMiddleware]

/-- C5: on `POST /api/analyze`, supplying both a (truthy) `image_url`
and an upload answers 400 with the not-both message, and supplying
neither answers 400 with the missing-input message; both responses are
the same for every environment — the download, sharp and provider
functions are never consulted. -/
theorem c5_mutual_exclusivity :
    (∀ (env : Env) (url : String) (f : JsFile), url ≠ ("") →
      apiAnalyzeCore env (some url) (some f) = Response.mk 400
        (RespBody.failure ("Please provide either an image URL or upload a file, not both."))) ∧
    (∀ env : Env, apiAnalyzeCore env none none = Response.mk 400
      (RespBody.failure ("Please provide either an image URL or upload a file."))) := by
  constructor
  · intro env url f h
    simp [apiAnalyzeCore, truthy, h]
  · intro env
    rfl

/-- Witness for `c5_mutual_exclusivity`: a concrete URL plus upload, and
the fully absent request. -/
theorem c5_mutual_exclusivity_w :
    apiAnalyzeCore envW (some ("http://x/a.png")) (some fileW) = Response.mk 400
      (RespBody.failure ("Please provide either an image URL or upload a file, not both.")) ∧
    apiAnalyzeCore envW none none = Response.mk 400
      (RespBody.failure ("Please provide either an image URL or upload a file.")) :=
  ⟨c5_mutual_exclusivity.1 envW ("http://x/a.png") fileW (by decide),
   c5_mutual_exclusivity.2 envW⟩

/-- Helper: a URL fetch whose body exceeds the ceiling is rejected by
axios, wrapped by `downloadImage`, and answered 500 by the handler catch
— for every sharp/provider environment. -/
theorem oversizeDownload500 (env : Env) (url : String) (data : List Nat)
    (h0 : url ≠ ("")) (hfetch : env.fetch url = Except.ok data)
    (hlen : data.length > maxBytes) :
    apiAnalyzeRoute env (some url) none = Response.mk 500
      (RespBody.failure (("Failed to download image: ") ++
        ("maxContentLength size of 33554432 exceeded"))) := by
  have hax : axiosGet env url =
      Except.error ("maxContentLength size of 33554432 exceeded") := by
    simp [axiosGet, hfetch, hlen]
  have hd : downloadImage env url =
      Except.error (("Failed to download image: ") ++
        ("maxContentLength size of 33554432 exceeded")) := by
    simp [downloadImage, hax]
  simp [apiAnalyzeRoute, multerGate, apiAnalyzeCore, truthy, h0, hd]

/-- C6 fails on the code for the URL path: an oversize download is
rejected by axios inside `downloadImage`, whose wrapped error is caught
by the route handler and answered with 500 — not with the claimed 413
(only the multer upload limit produces 413). -/
theorem c6_counterexample :
    apiAnalyzeRoute envBig (some ("http://host/huge.jpg")) none =
      Response.mk 500 (RespBody.failure
        (("Failed to download image: ") ++ ("maxContentLength size of 33554432 exceeded"))) ∧
    (apiAnalyzeRoute envBig (some ("http://host/huge.jpg")) none).status ≠ 413 := by
  have hlen : bigData.length > maxBytes := by
    simp [bigData]
  have hroute :=
    oversizeDownload500 envBig ("http://host/huge.jpg") bigData (by decide) rfl hlen
  exact ⟨hroute, by rw [hroute]; decide⟩

/-- C6 amended: past the 32 MiB ceiling the two acquisition paths take
different exits — an allow-listed upload above the ceiling is stopped by
the multer limit and answered 413 by the error middleware, while a URL
body above the ceiling makes `downloadImage` throw and is answered 500
by the handler's catch.  In both cases the response is the same for
every sharp/provider environment: nothing downstream runs on the
oversize payload. -/
theorem c6_oversize_rejection :
    (∀ (env : Env) (imageUrl : Option String) (f : JsFile),
      f.mimetype ∈ allowedTypes → f.buffer.length > maxBytes →
      apiAnalyzeRoute env imageUrl (some f) = Response.mk 413
        (RespBody.failure ("File too large. Maximum size is 32MB."))) ∧
    (∀ (env : Env) (url : String) (data : List Nat), url ≠ ("") →
      env.fetch url = Except.ok data → data.length > maxBytes →
      apiAnalyzeRoute env (some url) none = Response.mk 500
        (RespBody.failure (("Failed to download image: ") ++
          ("maxContentLength size of 33554432 exceeded")))) := by
  constructor
  · intro env imageUrl f h1 h2
    have hf : fileFilter f.mimetype = Except.ok () := by
      unfold fileFilter
      rw [if_pos h1]
    simp [apiAnalyzeRoute, multerGate, hf, h2, errorMiddleware]
  · intro env url data h0 hfetch hlen
    exact oversizeDownload500 env url data h0 hfetch hlen

/-- Witness for `c6_oversize_rejection`: the oversize upload `fileBig`
and the oversize download served by `envBig`. -/
theorem c6_oversize_rejection_w :
    apiAnalyzeRoute envW none (some fileBig) = Response.mk 413
      (RespBody.failure ("File too large. Maximum size is 32MB.")) ∧
    apiAnalyzeRoute envBig (some ("http://host/big.png")) none = Response.mk 500
      (RespBody.failure (("Failed to download image: ") ++
        ("maxContentLength size of 33554432 exceeded"))) :=
  ⟨c6_oversize_rejection.1 envW none fileBig (by decide)
      (by simp [fileBig, bigData]),
   c6_oversize_rejection.2 envBig ("http://host/big.png") bigData (by decide)
      rfl (by simp [bigData])⟩

/-- C10: whenever the Accept header includes `application/json`, the
`/analyze` and `/api/analyze` routes agree: the same multer gate, the
same guards, the same download, processing and prompt-generation
pipeline in the same order, and the identical JSON body and status on
success and on failure.  (They differ only in how non-JSON clients are
answered, which the hypothesis excludes.) -/
theorem c10_routes_agree (env : Env) (accept imageUrl : Option String)
    (file : Option JsFile) (hacc : acceptsJson accept = true) :
    analyzeRoute env accept imageUrl file =
      WebResponse.jsonResp (apiAnalyzeRoute env imageUrl file) := by
  unfold analyzeRoute apiAnalyzeRoute
  cases hg : multerGate file with
  | error e => rfl
  | ok f =>
    unfold analyzeWebCore apiAnalyzeCore
    cases h1 : truthy imageUrl && f.isSome with
    | true => simp [h1]
    | false =>
      cases h2 : !(truthy imageUrl) && f.isNone with
      | true => simp [h1, h2]
      | false =>
        simp only [h1, h2, Bool.false_eq_true, if_false]
        cases hbuf : (if truthy imageUrl then downloadImage env (imageUrl.getD (""))
            else Except.ok ((f.map JsFile.buffer).getD [])) with
        | error m => simp [hacc]
        | ok buf =>
          cases hproc : processImage env buf with
          | error m => simp [hproc, hacc]
          | ok processed =>
            cases hgen : generatePromptOf env processed with
            | error m => simp [hproc, hgen, hacc]
            | ok prompt => simp [hproc, hgen, hacc]

/-- Witness for `c10_routes_agree`: a JSON client making an empty
request gets the identical 400 from both routes. -/
theorem c10_routes_agree_w :
    analyzeRoute envW (some ("application/json")) none none =
      WebResponse.jsonResp (apiAnalyzeRoute envW none none) :=
  c10_routes_agree envW (some ("application/json")) none none (by decide)

theorem dropWhile_dropWhile (p : Char → Bool) (s : List Char) :
    (s.dropWhile p).dropWhile p = s.dropWhile p := by
  induction s with
  | nil => rfl
  | cons a t ih =>
    by_cases h : p a
    · simp [List.dropWhile_cons, h, ih]
    · simp [List.dropWhile_cons, h]

theorem head?_dropWhile (p : Char → Bool) (s : List Char) (c : Char)
    (h : (s.dropWhile p).head? = some c) : p c = false := by
  induction s with
  | nil => simp at h
  | cons a t ih =>
    by_cases ha : p a
    · rw [List.dropWhile_cons_of_pos ha] at h
      exact ih h
    · rw [List.dropWhile_cons_of_neg ha] at h
      simp at h
      subst h
      simpa using ha

theorem getLast?_dropWhile (p : Char → Bool) (s : List Char)
    (h : s.dropWhile p ≠ []) : (s.dropWhile p).getLast? = s.getLast? := by
  induction s with
  | nil => simp at h
  | cons a t ih =>
    by_cases ha : p a
    · rw [List.dropWhile_cons_of_pos ha] at h ⊢
      cases t with
      | nil => simp at h
      | cons b t2 =>
        rw [ih h, List.getLast?_cons_cons]
    · rw [List.dropWhile_cons_of_neg ha]

theorem dropWhile_eq_self (p : Char → Bool) (s : List Char)
    (h : ∀ c, s.head? = some c → p c = false) : s.dropWhile p = s := by
  cases s with
  | nil => rfl
  | cons a t =>
    have := h a rfl
    rw [List.dropWhile_cons_of_neg (by simp [this])]

theorem getLast?_trimList (s : List Char) (c : Char)
    (h : (trimList s).getLast? = some c) : isJsWs c = false := by
  unfold trimList at h
  rw [List.getLast?_reverse] at h
  exact head?_dropWhile isJsWs _ c h

theorem head?_trimList (s : List Char) (c : Char)
    (h : (trimList s).head? = some c) : isJsWs c = false := by
  unfold trimList at h
  rw [List.head?_reverse] at h
  have hne : (s.dropWhile isJsWs).reverse.dropWhile isJsWs ≠ [] := by
    intro he
    rw [he] at h
    simp at h
  rw [getLast?_dropWhile isJsWs _ hne, List.getLast?_reverse] at h
  exact head?_dropWhile isJsWs s c h

theorem trimList_eq_self (s : List Char)
    (h1 : ∀ c, s.head? = some c → isJsWs c = false)
    (h2 : ∀ c, s.getLast? = some c → isJsWs c = false) : trimList s = s := by
  unfold trimList
  rw [dropWhile_eq_self isJsWs s h1]
  rw [dropWhile_eq_self isJsWs s.reverse (by
    intro c hc
    rw [List.head?_reverse] at hc
    exact h2 c hc)]
  exact List.reverse_reverse s

theorem trimList_trimList (s : List Char) :
    trimList (trimList s) = trimList s :=
  trimList_eq_self _ (head?_trimList s) (getLast?_trimList s)

theorem mem_trimList (s : List Char) (c : Char) (h : c ∈ trimList s) : c ∈ s := by
  unfold trimList at h
  rw [List.mem_reverse] at h
  have h2 := (List.dropWhile_sublist isJsWs).subset h
  rw [List.mem_reverse] at h2
  exact (List.dropWhile_sublist isJsWs).subset h2

theorem chain'_trimList (s : List Char) (h : List.Chain' NoWsPair s) :
    List.Chain' NoWsPair (trimList s) := by
  have h1 : List.Chain' NoWsPair (s.dropWhile isJsWs) := by
    have := List.takeWhile_append_dropWhile isJsWs s
    rw [← this] at h
    exact (List.chain'_append.mp h).2.1
  unfold trimList
  have h2 : List.Chain' NoWsPair ((s.dropWhile isJsWs).reverse.dropWhile isJsWs).reverse := by
    have heq : (s.dropWhile isJsWs) =
        ((s.dropWhile isJsWs).reverse.dropWhile isJsWs).reverse ++
          ((s.dropWhile isJsWs).reverse.takeWhile isJsWs).reverse := by
      rw [← List.reverse_append, List.takeWhile_append_dropWhile, List.reverse_reverse]
    rw [heq] at h1
    exact (List.chain'_append.mp h1).1
  exact h2

theorem head?_collapseAux_true (s : List Char) (c : Char)
    (h : (collapseWsAux true s).head? = some c) : isJsWs c = false := by
  induction s with
  | nil => simp [collapseWsAux] at h
  | cons a t ih =>
    by_cases ha : isJsWs a
    · rw [show collapseWsAux true (a :: t) = collapseWsAux true t by
        simp [collapseWsAux, ha]] at h
      exact ih h
    · rw [show collapseWsAux true (a :: t) = a :: collapseWsAux false t by
        simp [collapseWsAux, ha]] at h
      simp at h
      subst h
      simpa using ha

theorem chain'_collapseAux (s : List Char) :
    ∀ b, List.Chain' NoWsPair (collapseWsAux b s) := by
  induction s with
  | nil => intro b; simp [collapseWsAux]
  | cons a t ih =>
    intro b
    by_cases ha : isJsWs a
    · cases b with
      | true =>
        rw [show collapseWsAux true (a :: t) = collapseWsAux true t by
          simp [collapseWsAux, ha]]
        exact ih true
      | false =>
        rw [show collapseWsAux false (a :: t) = ' ' :: collapseWsAux true t by
          simp [collapseWsAux, ha]]
        rw [List.chain'_cons']
        refine ⟨?_, ih true⟩
        intro y hy
        exact Or.inr (head?_collapseAux_true t y hy)
    · rw [show collapseWsAux b (a :: t) = a :: collapseWsAux false t by
        cases b <;> simp [collapseWsAux, ha]]
      rw [List.chain'_cons']
      refine ⟨?_, ih false⟩
      intro y hy
      exact Or.inl (by simpa using ha)

theorem mem_ws_collapseAux (s : List Char) (c : Char) :
    ∀ b, c ∈ collapseWsAux b s → isJsWs c = true → c = ' ' := by
  induction s with
  | nil => intro b h; simp [collapseWsAux] at h
  | cons a t ih =>
    intro b h hws
    by_cases ha : isJsWs a
    · cases b with
      | true =>
        rw [show collapseWsAux true (a :: t) = collapseWsAux true t by
          simp [collapseWsAux, ha]] at h
        exact ih true h hws
      | false =>
        rw [show collapseWsAux false (a :: t) = ' ' :: collapseWsAux true t by
          simp [collapseWsAux, ha]] at h
        rcases List.mem_cons.mp h with h1 | h2
        · exact h1
        · exact ih true h2 hws
    · rw [show collapseWsAux b (a :: t) = a :: collapseWsAux false t by
        cases b <;> simp [collapseWsAux, ha]] at h
      rcases List.mem_cons.mp h with h1 | h2
      · subst h1
        simp [hws] at ha
      · exact ih false h2 hws

theorem mem_collapseAux (s : List Char) (c : Char) :
    ∀ b, c ∈ collapseWsAux b s → c ∈ s ∨ c = ' ' := by
  induction s with
  | nil => intro b h; simp [collapseWsAux] at h
  | cons a t ih =>
    intro b h
    by_cases ha : isJsWs a
    · cases b with
      | true =>
        rw [show collapseWsAux true (a :: t) = collapseWsAux true t by
          simp [collapseWsAux, ha]] at h
        rcases ih true h with h1 | h2
        · exact Or.inl (List.mem_cons_of_mem a h1)
        · exact Or.inr h2
      | false =>
        rw [show collapseWsAux false (a :: t) = ' ' :: collapseWsAux true t by
          simp [collapseWsAux, ha]] at h
        rcases List.mem_cons.mp h with h1 | h2
        · exact Or.inr h1
        · rcases ih true h2 with h3 | h4
          · exact Or.inl (List.mem_cons_of_mem a h3)
          · exact Or.inr h4
    · rw [show collapseWsAux b (a :: t) = a :: collapseWsAux false t by
        cases b <;> simp [collapseWsAux, ha]] at h
      rcases List.mem_cons.mp h with h1 | h2
      · exact Or.inl (h1 ▸ List.mem_cons_self a t)
      · rcases ih false h2 with h3 | h4
        · exact Or.inl (List.mem_cons_of_mem a h3)
        · exact Or.inr h4

theorem collapseAux_fix (s : List Char)
    (hc : ∀ c ∈ s, isJsWs c = true → c = ' ')
    (hch : List.Chain' NoWsPair s) :
    collapseWsAux false s = s ∧
      ((∀ c, s.head? = some c → isJsWs c = false) → collapseWsAux true s = s) := by
  induction s with
  | nil => exact ⟨rfl, fun _ => rfl⟩
  | cons a t ih =>
    have hct : ∀ c ∈ t, isJsWs c = true → c = ' ' :=
      fun c hc2 => hc c (List.mem_cons_of_mem a hc2)
    have hcht : List.Chain' NoWsPair t := (List.chain'_cons'.mp hch).2
    have iht := ih hct hcht
    by_cases ha : isJsWs a
    · have ha' : a = ' ' := hc a (List.mem_cons_self a t) (by simpa using ha)
      have hhead : ∀ c, t.head? = some c → isJsWs c = false := by
        intro c hhc
        rcases (List.chain'_cons'.mp hch).1 c hhc with h1 | h2
        · rw [h1] at ha; simp at ha
        · exact h2
      constructor
      · rw [show collapseWsAux false (a :: t) = ' ' :: collapseWsAux true t by
          simp [collapseWsAux, ha]]
        rw [iht.2 hhead, ha']
      · intro hh
        have := hh a rfl
        rw [this] at ha
        simp at ha
    · constructor
      · rw [show collapseWsAux false (a :: t) = a :: collapseWsAux false t by
          simp [collapseWsAux, ha]]
        rw [iht.1]
      · intro _
        rw [show collapseWsAux true (a :: t) = a :: collapseWsAux false t by
          simp [collapseWsAux, ha]]
        rw [iht.1]

theorem removePairs_eq_self (s : List Char) (h : ∀ c ∈ s, c ≠ '*') :
    removePairs s = s := by
  induction s with
  | nil => rfl
  | cons a t ih =>
    cases t with
    | nil => rfl
    | cons b t2 =>
      have ha : a ≠ '*' := h a (List.mem_cons_self a _)
      rw [show removePairs (a :: b :: t2) = a :: removePairs (b :: t2) by
        simp [removePairs, ha]]
      rw [ih (fun c hc => h c (List.mem_cons_of_mem a hc))]

theorem stripEmphasis_eq_self (s : List Char) (h : ∀ c ∈ s, c ≠ '*') :
    stripEmphasis s = s := by
  unfold stripEmphasis
  rw [removePairs_eq_self s h]
  exact List.filter_eq_self.mpr (fun c hc => by simpa using h c hc)

theorem mem_stripEmphasis_ne_star (s : List Char) (c : Char)
    (h : c ∈ stripEmphasis s) : c ≠ '*' := by
  unfold stripEmphasis at h
  have := List.mem_filter.mp h
  simpa using this.2

theorem head?_dropLast (s : List Char) (c : Char)
    (h : s.dropLast.head? = some c) : s.head? = some c := by
  cases s with
  | nil => simp at h
  | cons a t =>
    cases t with
    | nil => simp at h
    | cons b t2 =>
      rw [List.dropLast_cons₂] at h
      simp at h ⊢
      exact h

theorem chain'_dropLast (s : List Char) (h : List.Chain' NoWsPair s) :
    List.Chain' NoWsPair s.dropLast := by
  cases hs : s with
  | nil => simp
  | cons a t =>
    rw [← hs]
    have hne : s ≠ [] := by rw [hs]; exact List.cons_ne_nil a t
    have := List.dropLast_append_getLast hne
    rw [← this] at h
    exact (List.chain'_append.mp h).1

theorem stripQuotes_eq_self (s : List Char)
    (h : ¬(s.head? = some '"' ∧ s.getLast? = some '"')) : stripQuotes s = s := by
  unfold stripQuotes
  rw [if_neg]
  simpa using h

theorem dropTrailingPeriod_eq_self (s : List Char)
    (h : s.getLast? ≠ some '.') : dropTrailingPeriod s = s := by
  unfold dropTrailingPeriod
  rw [if_neg h]

theorem stripBoilerplate_eq_self (s : List Char)
    (h : boilerList.find? (boilerMatch s) = none) : stripBoilerplate s = s := by
  unfold stripBoilerplate
  rw [h]

theorem clean_fix (y : List Char)
    (hstar : ∀ c ∈ y, c ≠ '*')
    (hchars : ∀ c ∈ y, isJsWs c = true → c = ' ')
    (hch : List.Chain' NoWsPair y)
    (hhead : ∀ c, y.head? = some c → isJsWs c = false)
    (hlast : ∀ c, y.getLast? = some c → isJsWs c = false)
    (hq : ¬(y.head? = some '"' ∧ y.getLast? = some '"'))
    (hp : boilerList.find? (boilerMatch y) = none)
    (hd : y.getLast? ≠ some '.') :
    clean y = y := by
  unfold clean
  rw [trimList_eq_self y hhead hlast,
      stripQuotes_eq_self y hq,
      stripBoilerplate_eq_self y hp,
      stripEmphasis_eq_self y hstar,
      show collapseWs y = y from (collapseAux_fix y hchars hch).1,
      trimList_eq_self y hhead hlast,
      dropTrailingPeriod_eq_self y hd]

theorem clean_out_props (x : List Char) :
    (∀ c ∈ clean x, c ≠ '*') ∧
    (∀ c ∈ clean x, isJsWs c = true → c = ' ') ∧
    List.Chain' NoWsPair (clean x) ∧
    (∀ c, (clean x).head? = some c → isJsWs c = false) := by
  have hy : clean x = dropTrailingPeriod
      (trimList (collapseWs (stripEmphasis
        (stripBoilerplate (stripQuotes (trimList x)))))) := rfl
  set z := stripEmphasis (stripBoilerplate (stripQuotes (trimList x))) with hz
  set w := trimList (collapseWs z) with hwdef
  have hw_star : ∀ c ∈ w, c ≠ '*' := by
    intro c hc
    have h1 : c ∈ collapseWsAux false z := mem_trimList _ c hc
    rcases mem_collapseAux z c false h1 with h2 | h2
    · exact mem_stripEmphasis_ne_star _ c h2
    · rw [h2]; decide
  have hw_chars : ∀ c ∈ w, isJsWs c = true → c = ' ' := by
    intro c hc
    exact mem_ws_collapseAux z c false (mem_trimList _ c hc)
  have hw_chain : List.Chain' NoWsPair w := chain'_trimList _ (chain'_collapseAux z false)
  have hw_head : ∀ c, w.head? = some c → isJsWs c = false := head?_trimList _
  by_cases hdp : w.getLast? = some '.'
  · have hy2 : clean x = w.dropLast := by
      rw [hy]
      unfold dropTrailingPeriod
      rw [if_pos hdp]
    rw [hy2]
    refine ⟨?_, ?_, ?_, ?_⟩
    · intro c hc
      exact hw_star c ((List.dropLast_sublist w).subset hc)
    · intro c hc
      exact hw_chars c ((List.dropLast_sublist w).subset hc)
    · exact chain'_dropLast w hw_chain
    · intro c hc
      exact hw_head c (head?_dropLast w c hc)
  · have hy2 : clean x = w := by
      rw [hy]
      unfold dropTrailingPeriod
      rw [if_neg hdp]
    rw [hy2]
    exact ⟨hw_star, hw_chars, hw_chain, hw_head⟩

/-- C1 amended: the cleanup pass is idempotent on every input whose
cleaned output is not surrounded by double quotes, does not
case-insensitively start with any boilerplate lead-in, and ends in
neither a period nor a space.  (Outside these conditions a second
application strips a further quote layer, lead-in, or period, as the
counterexample shows.) -/
theorem c1_conditional_idempotent (x : List Char)
    (hq : ¬((clean x).head? = some '"' ∧ (clean x).getLast? = some '"'))
    (hp : boilerList.find? (boilerMatch (clean x)) = none)
    (hd : (clean x).getLast? ≠ some '.')
    (hs : (clean x).getLast? ≠ some ' ') :
    clean (clean x) = clean x := by
  obtain ⟨h1, h2, h3, h4⟩ := clean_out_props x
  have hlast : ∀ c, (clean x).getLast? = some c → isJsWs c = false := by
    intro c hc
    by_contra hcon
    have hmem : c ∈ clean x := List.mem_of_mem_getLast? (Option.mem_def.mpr hc)
    have hsp : c = ' ' := h2 c hmem (by simpa using hcon)
    rw [hsp] at hc
    exact hs hc
  exact clean_fix (clean x) h1 h2 h3 h4 hlast hq hp hd

/-- Witness for `c1_conditional_idempotent`: the already-clean input
`hello world`. -/
theorem c1_conditional_idempotent_w :
    clean (clean (("hello world").data)) = clean (("hello world").data) :=
  c1_conditional_idempotent (("hello world").data)
    (by decide) (by decide) (by decide) (by decide)
